import Mathlib

/-!
Shallow embedding of the Resilient Multi-Provider Gateway
(`src/backend/src/app/shared/providers/`): types, circuit breaker, quota
manager, health tracker, key manager, router and gateway, followed by
theorems settling the spec claims.

Modelling conventions:
* monotonic time and latencies are rationals (`ℚ`);
* Python `deque`/`list` become Lean `List` (front = oldest);
* Python dicts keyed by provider id become association lists;
* decimal formatting such as `float(f"{x:.2f}")` is modelled as half-up
  rounding to the given number of digits (the claims never depend on the
  rounding mode, only on both sides applying the same function);
* each method that reads the clock takes `now : ℚ` explicitly; methods that
  mutate `self` return the updated structure.
-/

namespace RPG

/-- Half-up rounding of a rational to `d` decimal digits, modelling
Python's `float(f"{x:.df}")` output conversion. -/
def roundDigits (d : Nat) (x : ℚ) : ℚ :=
  (⌊x * (10 ^ d : ℚ) + 1/2⌋ : ℤ) / (10 ^ d : ℚ)

/-! ### types.py -/

/-- `ProviderStatus` from `types.py`. -/
inductive ProviderStatus
  | HEALTHY
  | DEGRADED
  | UNHEALTHY
  | CIRCUIT_OPEN
deriving DecidableEq, Repr

/-- `RoutingStrategy` from `types.py`. -/
inductive RoutingStrategy
  | ROUND_ROBIN
  | WEIGHTED
  | PRIORITY_FAILOVER
  | LEAST_LATENCY
deriving DecidableEq, Repr

/-- `ProviderConfig` from `types.py` (the opaque `metadata: dict[str, Any]`
field is not interpreted by any component and is omitted). -/
structure ProviderConfig where
  provider_id : String
  api_keys : List String := []
  priority : Int := 10
  weight : Int := 1
  rpm_limit : Nat := 60
  tpm_limit : Nat := 0
  timeout_s : ℚ := 60
  cb_failure_threshold : Nat := 5
  cb_cooldown_s : ℚ := 30
  max_retries : Nat := 2
deriving DecidableEq, Repr

/-- `str.strip()` on an API key is non-empty, i.e. the key is not blank.
Python's `strip` removes leading/trailing whitespace; a key is blank iff it
consists only of whitespace characters. -/
def isNonBlank (s : String) : Bool :=
  s.toList.any (fun c => !c.isWhitespace)

/-- `ProviderConfig.has_keys`: `bool(self.api_keys) and any(k.strip() for k in self.api_keys)`. -/
def ProviderConfig.has_keys (cfg : ProviderConfig) : Bool :=
  !cfg.api_keys.isEmpty && cfg.api_keys.any isNonBlank

/-! ### circuit_breaker.py -/

/-- `CircuitState` from `circuit_breaker.py`. -/
inductive CircuitState
  | CLOSED
  | OPEN
  | HALF_OPEN
deriving DecidableEq, Repr

/-- `CircuitBreaker`: configuration plus mutable fields. -/
structure CircuitBreaker where
  failure_threshold : Nat := 5
  cooldown : ℚ := 30
  state : CircuitState := .CLOSED
  consecutive_failures : Nat := 0
  last_failure_time : ℚ := 0
deriving DecidableEq, Repr

namespace CircuitBreaker

/-- `_maybe_transition_to_half_open` at time `now`. -/
def maybeTransitionToHalfOpen (cb : CircuitBreaker) (now : ℚ) : CircuitBreaker :=
  if cb.state = .OPEN ∧ now - cb.last_failure_time ≥ cb.cooldown then
    { cb with state := .HALF_OPEN }
  else cb

/-- The `state` property: observe the state at time `now` (this also performs
the OPEN→HALF_OPEN transition, so observation mutates the breaker). -/
def stateAt (cb : CircuitBreaker) (now : ℚ) : CircuitState × CircuitBreaker :=
  let cb' := cb.maybeTransitionToHalfOpen now
  (cb'.state, cb')

/-- `can_execute()` at time `now`: the boolean result together with the
updated breaker (the OPEN→HALF_OPEN transition may fire). -/
def canExecute (cb : CircuitBreaker) (now : ℚ) : Bool × CircuitBreaker :=
  let cb' := cb.maybeTransitionToHalfOpen now
  (cb'.state ≠ .OPEN, cb')

/-- `record_success()`. -/
def recordSuccess (cb : CircuitBreaker) : CircuitBreaker :=
  { cb with state := .CLOSED, consecutive_failures := 0 }

/-- `record_failure()` at time `now`. -/
def recordFailure (cb : CircuitBreaker) (now : ℚ) : CircuitBreaker :=
  let cf := cb.consecutive_failures + 1
  let cb := { cb with consecutive_failures := cf, last_failure_time := now }
  if cb.state = .HALF_OPEN then
    { cb with state := .OPEN }
  else if cb.state = .CLOSED ∧ cf ≥ cb.failure_threshold then
    { cb with state := .OPEN }
  else cb

/-- `reset()`: force-reset to CLOSED (admin override). -/
def reset (cb : CircuitBreaker) : CircuitBreaker :=
  { cb with state := .CLOSED, consecutive_failures := 0 }

/-- `record_failure` iterated `n` times, all at time `now`
(n consecutive failures with no interleaved success). -/
def recordFailures (cb : CircuitBreaker) (now : ℚ) : Nat → CircuitBreaker
  | 0 => cb
  | n + 1 => (cb.recordFailures now n).recordFailure now

end CircuitBreaker

/-! ### quota.py -/

/-- `_UsageRecord` from `quota.py`. -/
structure UsageRecord where
  timestamp : ℚ
  tokens : Nat
deriving DecidableEq, Repr

/-- `QuotaManager`: configuration plus mutable fields.  `_records` is kept
front = oldest, as the Python `deque`. -/
structure QuotaManager where
  rpm_limit : Nat := 60
  tpm_limit : Nat := 0
  window : ℚ := 60
  warning_thr : ℚ := 9/10
  records : List UsageRecord := []
  warning_emitted : Bool := false
deriving DecidableEq, Repr

namespace QuotaManager

/-- The eviction loop of `_evict`: pop from the front while the record is
older than the cutoff. -/
def evictRecords (cutoff : ℚ) : List UsageRecord → List UsageRecord
  | [] => []
  | r :: rs => if r.timestamp < cutoff then evictRecords cutoff rs else r :: rs

/-- `_evict` at time `now`: drop expired records, then clear the warning
flag when usage is back below the threshold. -/
def evict (q : QuotaManager) (now : ℚ) : QuotaManager :=
  let recs := evictRecords (now - q.window) q.records
  let warn :=
    if q.rpm_limit > 0 ∧ (recs.length : ℚ) / (q.rpm_limit : ℚ) < q.warning_thr then
      false
    else q.warning_emitted
  { q with records := recs, warning_emitted := warn }

/-- `can_accept(estimated_tokens)` at time `now`: the boolean result together
with the updated manager (eviction mutates it). -/
def canAccept (q : QuotaManager) (estimated_tokens : Nat) (now : ℚ) :
    Bool × QuotaManager :=
  let q := q.evict now
  if q.rpm_limit > 0 ∧ q.records.length ≥ q.rpm_limit then
    (false, q)
  else if q.tpm_limit > 0 ∧
      (q.records.map (·.tokens)).sum + estimated_tokens > q.tpm_limit then
    (false, q)
  else
    (true, q)

/-- `_check_warning` (the flag update only; the log line is not modelled). -/
def checkWarning (q : QuotaManager) : QuotaManager :=
  if q.rpm_limit ≤ 0 ∨ q.warning_emitted then q
  else if (q.records.length : ℚ) / (q.rpm_limit : ℚ) ≥ q.warning_thr then
    { q with warning_emitted := true }
  else q

/-- `record_usage(tokens)` at time `now`. -/
def recordUsage (q : QuotaManager) (tokens : Nat) (now : ℚ) : QuotaManager :=
  (({ q with
      records := q.records ++ [({ timestamp := now, tokens } : UsageRecord)]
    }).evict now).checkWarning

/-- `reset()`: clear all usage records and the warning flag. -/
def reset (q : QuotaManager) : QuotaManager :=
  { q with records := [], warning_emitted := false }

end QuotaManager

/-! ### health.py -/

/-- `_Sample` from `health.py`. -/
structure Sample where
  timestamp : ℚ
  success : Bool
  latency_ms : ℚ
  error : Option String := none
deriving DecidableEq, Repr

/-- `ProviderHealth` from `types.py`. -/
structure ProviderHealth where
  provider_id : String
  status : ProviderStatus := .HEALTHY
  total_requests : Nat := 0
  total_successes : Nat := 0
  total_failures : Nat := 0
  consecutive_failures : Nat := 0
  success_rate : ℚ := 1
  latency_p50_ms : ℚ := 0
  latency_p95_ms : ℚ := 0
  latency_p99_ms : ℚ := 0
  last_error : Option String := none
  last_error_time : Option ℚ := none
  circuit_state : String := "closed"
  quota_remaining_pct : ℚ := 100
  current_key_index : Nat := 0
deriving DecidableEq, Repr

/-- `ProviderHealthTracker`: configuration plus mutable fields.  `_samples`
is front = oldest; `_latencies` is kept sorted. -/
structure HealthTracker where
  provider_id : String
  window : ℚ := 60
  degraded_thr : ℚ := 3/10
  unhealthy_thr : ℚ := 6/10
  samples : List Sample := []
  latencies : List ℚ := []
  total_requests : Nat := 0
  total_successes : Nat := 0
  total_failures : Nat := 0
  consecutive_failures : Nat := 0
  last_error : Option String := none
  last_error_time : Option ℚ := none
deriving DecidableEq, Repr

namespace HealthTracker

/-- `bisect.insort`: insert into a sorted list (after existing equals). -/
def insort (x : ℚ) : List ℚ → List ℚ
  | [] => [x]
  | h :: t => if x < h then x :: h :: t else h :: insort x t

/-- The eviction loop of `_evict`: pop expired samples from the front,
removing each popped sample's latency from `_latencies` by value
(`list.remove` removes the first occurrence; the `in` guard makes the
removal a no-op when the value is absent, which is what `List.erase` does). -/
def evictLoop (cutoff : ℚ) : List Sample → List ℚ → List Sample × List ℚ
  | [], lats => ([], lats)
  | s :: ss, lats =>
    if s.timestamp < cutoff then evictLoop cutoff ss (lats.erase s.latency_ms)
    else (s :: ss, lats)

/-- `_evict` at time `now`. -/
def evict (t : HealthTracker) (now : ℚ) : HealthTracker :=
  let (ss, ls) := evictLoop (now - t.window) t.samples t.latencies
  { t with samples := ss, latencies := ls }

/-- `record_success(latency_ms)` at time `now`. -/
def recordSuccess (t : HealthTracker) (latency_ms : ℚ) (now : ℚ) : HealthTracker :=
  ({ t with
      samples := t.samples ++ [({ timestamp := now, success := true, latency_ms } : Sample)]
      latencies := insort latency_ms t.latencies
      total_requests := t.total_requests + 1
      total_successes := t.total_successes + 1
      consecutive_failures := 0 }).evict now

/-- `record_failure(error, latency_ms)` at time `now`: the latency is added
to the percentile samples only when it is positive. -/
def recordFailure (t : HealthTracker) (error : String) (latency_ms : ℚ) (now : ℚ) :
    HealthTracker :=
  ({ t with
      samples := t.samples ++
        [({ timestamp := now, success := false, latency_ms, error := some error } : Sample)]
      latencies := if latency_ms > 0 then insort latency_ms t.latencies else t.latencies
      total_requests := t.total_requests + 1
      total_failures := t.total_failures + 1
      consecutive_failures := t.consecutive_failures + 1
      last_error := some error
      last_error_time := some now }).evict now

/-- The `status` property at time `now` (evicts, then classifies by the
windowed failure rate). -/
def status (t : HealthTracker) (now : ℚ) : ProviderStatus :=
  let t := t.evict now
  if t.samples.isEmpty then .HEALTHY
  else
    let failures := (t.samples.filter (fun s => !s.success)).length
    let rate := (failures : ℚ) / (t.samples.length : ℚ)
    if rate ≥ t.unhealthy_thr then .UNHEALTHY
    else if rate ≥ t.degraded_thr then .DEGRADED
    else .HEALTHY

/-- `_percentile(p)`: index `int(len * p)` clamped to the last index; `0.0`
when the sorted latency list is empty.  Note that `_percentile` does NOT
evict; it reads `_latencies` as is. -/
def percentile (t : HealthTracker) (p : ℚ) : ℚ :=
  if t.latencies.isEmpty then 0
  else
    let idx := min (⌊(t.latencies.length : ℚ) * p⌋.toNat) (t.latencies.length - 1)
    roundDigits 2 (t.latencies.getD idx 0)

/-- The `health` property at time `now`: the snapshot produced
(the eviction side effect is applied to the tracker by `evict`). -/
def health (t : HealthTracker) (now : ℚ) : ProviderHealth :=
  let te := t.evict now
  let window_total := te.samples.length
  let window_failures := (te.samples.filter (fun s => !s.success)).length
  let success_rate :=
    if window_total ≠ 0 then
      ((window_total - window_failures : Nat) : ℚ) / (window_total : ℚ)
    else 1
  { provider_id := t.provider_id
    status := t.status now
    total_requests := t.total_requests
    total_successes := t.total_successes
    total_failures := t.total_failures
    consecutive_failures := t.consecutive_failures
    success_rate := roundDigits 4 success_rate
    latency_p50_ms := te.percentile (1/2)
    latency_p95_ms := te.percentile (95/100)
    latency_p99_ms := te.percentile (99/100)
    last_error := t.last_error
    last_error_time := t.last_error_time }

end HealthTracker

/-! ### key_manager.py -/

/-- `KeyState` from `key_manager.py`. -/
structure KeyState where
  api_key : String
  index : Nat
  circuit_breaker : CircuitBreaker
  quota_manager : QuotaManager
  health_tracker : HealthTracker
deriving DecidableEq, Repr

/-- `KeyManager` from `key_manager.py`. -/
structure KeyManager where
  provider_id : String
  keys : List KeyState := []
  rr_index : Nat := 0
deriving DecidableEq, Repr

namespace KeyManager

/-- `KeyManager.__init__(config)`: one `KeyState` per API key, with isolated
circuit breaker, quota manager (default 60 s window) and health tracker. -/
def init (config : ProviderConfig) : KeyManager :=
  { provider_id := config.provider_id
    rr_index := 0
    keys := config.api_keys.enum.map (fun p =>
      { api_key := p.2
        index := p.1
        circuit_breaker :=
          { failure_threshold := config.cb_failure_threshold
            cooldown := config.cb_cooldown_s }
        quota_manager :=
          { rpm_limit := config.rpm_limit
            tpm_limit := config.tpm_limit }
        health_tracker :=
          { provider_id := config.provider_id ++ ":key-" ++ toString p.1
            window := 60 } }) }

/-- The scan loop of `select_key`: visit the given positions in order; at each
position first consult the circuit breaker, then the quota manager.  Both
checks mutate the visited key state (half-open transition, quota eviction);
the loop returns the position of the first key passing both checks. -/
def scanKeys (est : Nat) (now : ℚ) : List Nat → List KeyState → Option Nat × List KeyState
  | [], keys => (none, keys)
  | idx :: rest, keys =>
    match keys[idx]? with
    | none => scanKeys est now rest keys
    | some ks =>
      let (okCB, cb') := ks.circuit_breaker.canExecute now
      if !okCB then
        scanKeys est now rest (keys.set idx { ks with circuit_breaker := cb' })
      else
        let (okQ, q') := ks.quota_manager.canAccept est now
        let keys := keys.set idx { ks with circuit_breaker := cb', quota_manager := q' }
        if !okQ then scanKeys est now rest keys
        else (some idx, keys)

/-- The scan order of `select_key`: `(start + i) % count` for `i < count`. -/
def scanOrder (start count : Nat) : List Nat :=
  (List.range count).map (fun i => (start + i) % count)

/-- `select_key(estimated_tokens)` at time `now`: returns the selected
position (if any) and the updated manager; on success the cursor advances to
just past the selected position. -/
def selectKeyIdx (km : KeyManager) (est : Nat) (now : ℚ) : Option Nat × KeyManager :=
  let count := km.keys.length
  if count = 0 then (none, km)
  else
    match scanKeys est now (scanOrder km.rr_index count) km.keys with
    | (some idx, keys) => (some idx, { km with keys := keys, rr_index := (idx + 1) % count })
    | (none, keys) => (none, { km with keys := keys })

/-- `select_key` as in the source: returns the selected `KeyState` itself
(the caller reads its `index` and `api_key` fields). -/
def selectKey (km : KeyManager) (est : Nat) (now : ℚ) : Option KeyState × KeyManager :=
  match km.selectKeyIdx est now with
  | (some idx, km') => (km'.keys[idx]?, km')
  | (none, km') => (none, km')

/-- `record_success(key_index, latency_ms, tokens)` at time `now`; out of
range indices are ignored (the `0 <= key_index < len` guard). -/
def recordSuccess (km : KeyManager) (key_index : Nat) (latency_ms : ℚ) (tokens : Nat)
    (now : ℚ) : KeyManager :=
  match km.keys[key_index]? with
  | none => km
  | some ks =>
    let ks' : KeyState :=
      { ks with
          circuit_breaker := ks.circuit_breaker.recordSuccess
          quota_manager := ks.quota_manager.recordUsage tokens now
          health_tracker := ks.health_tracker.recordSuccess latency_ms now }
    { km with keys := km.keys.set key_index ks' }

/-- `record_failure(key_index, error, latency_ms)` at time `now`: forwards to
the circuit breaker and the health tracker only (not the quota manager). -/
def recordFailure (km : KeyManager) (key_index : Nat) (error : String) (latency_ms : ℚ)
    (now : ℚ) : KeyManager :=
  match km.keys[key_index]? with
  | none => km
  | some ks =>
    let ks' : KeyState :=
      { ks with
          circuit_breaker := ks.circuit_breaker.recordFailure now
          health_tracker := ks.health_tracker.recordFailure error latency_ms now }
    { km with keys := km.keys.set key_index ks' }

/-- The `any_healthy` property: at least one key's circuit breaker admits
execution.  (The half-open transition side effect of `can_execute` does not
change the returned boolean, so only the value is modelled.) -/
def anyHealthy (km : KeyManager) (now : ℚ) : Bool :=
  km.keys.any (fun ks => (ks.circuit_breaker.canExecute now).1)

/-- The `key_count` property. -/
def key_count (km : KeyManager) : Nat := km.keys.length

end KeyManager

/-- `select_key` called `M` times in a row (with nothing recorded in
between, as in the round-robin fairness property): the list of selected
positions, in order, together with the final manager state. -/
def selectKeys (est : Nat) (now : ℚ) : Nat → KeyManager → List Nat × KeyManager
  | 0, km => ([], km)
  | M + 1, km =>
    match km.selectKeyIdx est now with
    | (some idx, km') =>
      let r := selectKeys est now M km'
      (idx :: r.1, r.2)
    | (none, km') =>
      let r := selectKeys est now M km'
      (r.1, r.2)

/-! ### router.py -/

/-- Stable sort modelling Python's `sorted(..., key=...)` (insertion sort;
Python's timsort is also stable, and any two stable sorts by the same key
agree). `le` must be a total preorder test. -/
def insertSorted {α : Type} (le : α → α → Bool) (x : α) : List α → List α
  | [] => [x]
  | h :: t => if le h x then h :: insertSorted le x t else x :: h :: t

/-- Stable sort by repeated insertion (see `insertSorted`). -/
def stableSort {α : Type} (le : α → α → Bool) : List α → List α
  | [] => []
  | h :: t => insertSorted le h (stableSort le t)

/-- `ProviderRouter` from `router.py`: providers, strategy, the three
optional per-provider tracker dicts (modelled as association lists) and the
round-robin cursor. -/
structure ProviderRouter where
  providers : List ProviderConfig
  strategy : RoutingStrategy := .PRIORITY_FAILOVER
  health : List (String × HealthTracker) := []
  circuits : List (String × CircuitBreaker) := []
  quotas : List (String × QuotaManager) := []
  rr_index : Nat := 0

namespace ProviderRouter

/-- `_filter_candidates(exclude, estimated_tokens)` at time `now`: keep the
providers that are not excluded, have at least one non-blank key, and whose
(optional, router-level) circuit breaker, health tracker and quota manager do
not reject them.  Only the returned candidate list is modelled; the tracker
mutations performed by `can_execute`/`status`/`can_accept` are internal to
the router's own dicts and are observed by no claim. -/
def filterCandidates (router : ProviderRouter) (exclude : List String)
    (estimated_tokens : Nat) (now : ℚ) : List ProviderConfig :=
  router.providers.filter (fun provider =>
    let pid := provider.provider_id
    if exclude.contains pid then false
    else if !provider.has_keys then false
    else if !(match List.lookup pid router.circuits with
              | some cb => (cb.canExecute now).1
              | none => true) then false
    else if (match List.lookup pid router.health with
             | some tr => tr.status now == ProviderStatus.UNHEALTHY
             | none => false) then false
    else
      match List.lookup pid router.quotas with
      | some q => (q.canAccept estimated_tokens now).1
      | none => true)

/-- `get_fallback_chain(exclude, estimated_tokens)` at time `now`: all
candidates surviving the filter, sorted (stably) by ascending priority. -/
def getFallbackChain (router : ProviderRouter) (exclude : List String)
    (estimated_tokens : Nat) (now : ℚ) : List ProviderConfig :=
  stableSort (fun a b => a.priority ≤ b.priority)
    (router.filterCandidates exclude estimated_tokens now)

/-- The keyword parameters `ProviderRouter.__init__` declares after
`providers` (router.py lines 26–34).  Python rejects a call that passes any
keyword argument outside this list with a `TypeError`. -/
def initKeywords : List String :=
  ["strategy", "health_trackers", "circuit_breakers", "quota_managers"]

end ProviderRouter

/-! ### gateway.py -/

/-- Python `dict` assignment `d[k] = v` on an insertion-ordered dict
modelled on association lists: overwrite in place when the key exists,
append otherwise. -/
def upsert {β : Type} (d : List (String × β)) (k : String) (v : β) : List (String × β) :=
  if d.any (fun p => p.1 = k) then
    d.map (fun p => if p.1 = k then (k, v) else p)
  else d ++ [(k, v)]

/-- The state of a `ResilientProviderGateway` object. -/
structure Gateway where
  providers : List ProviderConfig
  max_retries : Nat := 2
  backoff_base : ℚ := 1/2
  backoff_max : ℚ := 8
  key_managers : List (String × KeyManager) := []
  router : ProviderRouter

/-- One invocation of the caller's `request_fn` either returns a value,
exceeds the per-attempt timeout (`asyncio.TimeoutError`), or raises; a
raised exception is captured by the gateway as the string
`f"{type(exc).__name__}: {exc}"`, which the model carries in `err`. -/
inductive RequestOutcome (T : Type)
  | ok (v : T)
  | timeout
  | err (msg : String)

/-- Result of `_try_provider` for one provider: a success value, or the
reason recorded in the gateway's error map for that provider. -/
inductive TryResult (T : Type)
  | success (v : T)
  | noUsableKeys
  | exhaustedAttempts

namespace Gateway

/-- The keyword-argument names `ResilientProviderGateway.__init__` passes to
`ProviderRouter(...)` (gateway.py lines 73–77): `strategy=strategy` and
`key_managers=self._key_managers`. -/
def routerCallKwargs : List String := ["strategy", "key_managers"]

/-- `ResilientProviderGateway.__init__(providers, strategy,
max_retries_per_provider, backoff_base, backoff_max)`.  It builds one
`KeyManager` per provider and then constructs the router with the keyword
arguments in `routerCallKwargs`; Python raises `TypeError` when a keyword
name is not among `ProviderRouter.initKeywords`.  In the non-raising case
the router's tracker dicts take their empty defaults (no
`health_trackers`/`circuit_breakers`/`quota_managers` keyword is passed). -/
def init (providers : List ProviderConfig)
    (strategy : RoutingStrategy := .PRIORITY_FAILOVER)
    (max_retries_per_provider : Nat := 2)
    (backoff_base : ℚ := 1/2) (backoff_max : ℚ := 8) :
    Except String Gateway :=
  let key_managers :=
    providers.foldl (fun d cfg => upsert d cfg.provider_id (KeyManager.init cfg)) []
  if routerCallKwargs.all (fun kw => ProviderRouter.initKeywords.contains kw) then
    .ok
      { providers := providers
        max_retries := max_retries_per_provider
        backoff_base := backoff_base
        backoff_max := backoff_max
        key_managers := key_managers
        router := { providers := providers, strategy := strategy } }
  else
    .error "TypeError: ProviderRouter.__init__() got an unexpected keyword argument 'key_managers'"

/-- The attempt loop inside `_try_provider`, recursing on the number of
remaining attempts.  `reqFn cfg key n` is the outcome of the `n`-th
`request_fn` invocation of this `execute` call and `latency n` the measured
latency of that invocation; `calls` counts invocations so far.  The
backoff sleep between attempts has no observable effect in this model
(time is held at `now`). -/
def tryAttempts {T : Type} (cfg : ProviderConfig)
    (reqFn : ProviderConfig → String → Nat → RequestOutcome T)
    (latency : Nat → ℚ) (est : Nat) (now : ℚ) :
    Nat → KeyManager → Nat → TryResult T × KeyManager × Nat
  | 0, km, calls => (.exhaustedAttempts, km, calls)
  | remaining + 1, km, calls =>
    match km.selectKey est now with
    | (none, km) => (.noUsableKeys, km, calls)
    | (some ks, km) =>
      match reqFn cfg ks.api_key calls with
      | .ok v =>
        (.success v, km.recordSuccess ks.index (latency calls) est now, calls + 1)
      | .timeout =>
        let msg := "Timeout after " ++ toString cfg.timeout_s ++ "s"
        tryAttempts cfg reqFn latency est now remaining
          (km.recordFailure ks.index msg (latency calls) now) (calls + 1)
      | .err msg =>
        tryAttempts cfg reqFn latency est now remaining
          (km.recordFailure ks.index msg (latency calls) now) (calls + 1)

/-- `_try_provider(cfg, request_fn, estimated_tokens, errors)`: run up to
`min(cfg.max_retries + 1, max(key_count, 1))` attempts; on failure record
the provider's reason (`"no_usable_keys"` or `"exhausted_attempts"`) in the
error map. -/
def tryProvider {T : Type} (cfg : ProviderConfig)
    (reqFn : ProviderConfig → String → Nat → RequestOutcome T)
    (latency : Nat → ℚ) (est : Nat) (now : ℚ)
    (km : KeyManager) (errors : List (String × String)) (calls : Nat) :
    Option T × KeyManager × List (String × String) × Nat :=
  let max_attempts := min (cfg.max_retries + 1) (max km.key_count 1)
  match tryAttempts cfg reqFn latency est now max_attempts km calls with
  | (.success v, km, calls) => (some v, km, errors, calls)
  | (.noUsableKeys, km, calls) =>
    (none, km, upsert errors cfg.provider_id "no_usable_keys", calls)
  | (.exhaustedAttempts, km, calls) =>
    (none, km, upsert errors cfg.provider_id "exhausted_attempts", calls)

/-- `_build_chain(preferred, estimated_tokens)` at time `now`: the router's
fallback chain (no exclusions), with the preferred provider moved to the
front when it is a non-empty id present in the chain (`if preferred:` is
false for both `None` and `""`). -/
def buildChain (gw : Gateway) (preferred : Option String) (est : Nat) (now : ℚ) :
    List ProviderConfig :=
  let chain := gw.router.getFallbackChain [] est now
  match preferred with
  | none => chain
  | some p =>
    if p = "" then chain
    else
      match chain.find? (fun c => c.provider_id = p) with
      | none => chain
      | some c => c :: chain.erase c

/-- Outcome of `execute`: the success value, the
`AllProvidersExhaustedError` with its per-provider reason map, or an
unhandled `KeyError` from `self._key_managers[pid]` (possible only when a
chain provider has no key manager entry). -/
inductive ExecResult (T : Type)
  | ok (v : T)
  | exhausted (errors : List (String × String))
  | keyError (pid : String)

/-- The provider loop of `execute`: walk the chain, skipping providers
already attempted, calling `_try_provider` on each and returning its first
success; raise `AllProvidersExhaustedError(errors)` when the chain ends. -/
def executeChain {T : Type}
    (reqFn : ProviderConfig → String → Nat → RequestOutcome T)
    (latency : Nat → ℚ) (est : Nat) (now : ℚ) :
    List ProviderConfig → List String → List (String × KeyManager) →
    List (String × String) → Nat →
    ExecResult T × List (String × KeyManager)
  | [], _, kms, errors, _ => (.exhausted errors, kms)
  | cfg :: rest, attempted, kms, errors, calls =>
    let pid := cfg.provider_id
    if attempted.contains pid then
      executeChain reqFn latency est now rest attempted kms errors calls
    else
      match List.lookup pid kms with
      | none => (.keyError pid, kms)
      | some km =>
        match tryProvider cfg reqFn latency est now km errors calls with
        | (some v, km, _, _) => (.ok v, upsert kms pid km)
        | (none, km, errors, calls) =>
          executeChain reqFn latency est now rest (attempted ++ [pid])
            (upsert kms pid km) errors calls

/-- `execute(request_fn, estimated_tokens, preferred_provider)` at time
`now`: build the chain, then run the provider loop. -/
def execute {T : Type} (gw : Gateway)
    (reqFn : ProviderConfig → String → Nat → RequestOutcome T)
    (latency : Nat → ℚ) (est : Nat) (preferred : Option String) (now : ℚ) :
    ExecResult T × List (String × KeyManager) :=
  executeChain reqFn latency est now (gw.buildChain preferred est now) []
    gw.key_managers [] 0

/-- `get_health(provider_id)` at time `now`: the aggregate snapshot — summed
cumulative counters over the keys, aggregate success rate, usable-key
status, and the hard-coded fields (zero percentiles, 100% quota, fixed
`last_error`). -/
def getHealth (gw : Gateway) (provider_id : String) (now : ℚ) : Option ProviderHealth :=
  match List.lookup provider_id gw.key_managers with
  | none => none
  | some km =>
    let total_req : Nat := (km.keys.map (fun ks => (ks.health_tracker.health now).total_requests)).sum
    let total_succ : Nat := (km.keys.map (fun ks => (ks.health_tracker.health now).total_successes)).sum
    let total_fail : Nat := (km.keys.map (fun ks => (ks.health_tracker.health now).total_failures)).sum
    let usable_keys := (km.keys.filter (fun ks => (ks.circuit_breaker.canExecute now).1)).length
    let status :=
      if usable_keys = 0 ∧ km.key_count > 0 then ProviderStatus.UNHEALTHY
      else if usable_keys < km.key_count then ProviderStatus.DEGRADED
      else ProviderStatus.HEALTHY
    let success_rate := if total_req > 0 then (total_succ : ℚ) / (total_req : ℚ) else 1
    some
      { provider_id := provider_id
        status := status
        total_requests := total_req
        total_successes := total_succ
        total_failures := total_fail
        success_rate := roundDigits 4 success_rate
        latency_p50_ms := 0
        latency_p95_ms := 0
        latency_p99_ms := 0
        last_error := some "Check individual key logs"
        quota_remaining_pct := 100
        current_key_index := km.rr_index }

/-- Modelled from the spec: `ResilientProviderGateway` in `gateway.py`
declares no `reset_provider` method, although the REST admin route
(`adapters/inbound/rest/routers.py` line 479) and the unit test
`test_admin_reset` (`tests/unit/shared/test_provider_resilience.py` line
554) both call `gateway.reset_provider(provider_id)`.  Spec §4.6 (Admin):
"`resetProvider(providerID)` forces all keys' CircuitBreakers and
QuotaManagers to their initial state."  This definition applies the
existing `CircuitBreaker.reset` and `QuotaManager.reset` (which do exist in
`circuit_breaker.py` / `quota.py`) to one key's state. -/
def resetKeyState (ks : KeyState) : KeyState :=
  { ks with
      circuit_breaker := ks.circuit_breaker.reset
      quota_manager := ks.quota_manager.reset }

/-- Modelled from the spec (see `resetKeyState` above): the per-provider
admin reset applies the per-key reset to every key of the named provider and
leaves a gateway without that provider unchanged. -/
def resetProvider (gw : Gateway) (provider_id : String) : Gateway :=
  match List.lookup provider_id gw.key_managers with
  | none => gw
  | some km =>
    let km' : KeyManager := { km with keys := km.keys.map resetKeyState }
    { gw with key_managers := upsert gw.key_managers provider_id km' }

end Gateway

/-! ### Fixtures: concrete states used by the claim theorems and witnesses -/

/-- A concrete quota manager at its RPM limit: rpmLimit 1, one usage record
at time 0 inside the 60 s window. -/
def quotaAtLimit : QuotaManager :=
  { rpm_limit := 1, tpm_limit := 0, window := 60,
    records := [{ timestamp := 0, tokens := 0 }] }

/-- The events a `CircuitBreaker` experiences: `record_success()`,
`record_failure()` at a time, and a state observation (the `state` property
or `can_execute()`, both of which run `_maybe_transition_to_half_open`) at a
time. -/
inductive CBEvent
  | success
  | failure (now : ℚ)
  | observe (now : ℚ)

/-- Apply one event to a breaker. -/
def CBEvent.apply (cb : CircuitBreaker) : CBEvent → CircuitBreaker
  | .success => cb.recordSuccess
  | .failure now => cb.recordFailure now
  | .observe now => (cb.stateAt now).2

/-- A sequence of `record_failure` calls at the given times, oldest first
(consecutive failures with no interleaved success). -/
def recordFailuresAt (cb : CircuitBreaker) : List ℚ → CircuitBreaker
  | [] => cb
  | t :: ts => recordFailuresAt (cb.recordFailure t) ts

/-- A freshly constructed breaker with the given threshold and cooldown. -/
def freshCB (threshold : Nat) (cooldown : ℚ) : CircuitBreaker :=
  { failure_threshold := threshold, cooldown := cooldown }

/-- A breaker with threshold 1 and cooldown 30, used to exhibit the
OPEN→CLOSED transition on `record_success`. -/
def cbTripped : CircuitBreaker := (freshCB 1 30).recordFailure 0

/-- Provider config for the witnesses: one provider "alpha" with one key. -/
def cfgAlpha : ProviderConfig := { provider_id := "alpha", api_keys := ["k1"] }

/-- A gateway state for "alpha" as the (intended) constructor would build it. -/
def gwAlpha : Gateway :=
  { providers := [cfgAlpha]
    key_managers := [("alpha", KeyManager.init cfgAlpha)]
    router := { providers := [cfgAlpha] } }

/-- The key manager for "alpha" after the admin reset. -/
def kmAlphaReset : KeyManager :=
  { KeyManager.init cfgAlpha with
      keys := (KeyManager.init cfgAlpha).keys.map Gateway.resetKeyState }

/-- The snapshot `get_health` produces for the fresh "alpha" gateway. -/
def healthAlpha : ProviderHealth :=
  { provider_id := "alpha", status := .HEALTHY,
    total_requests := 0, total_successes := 0, total_failures := 0,
    success_rate := roundDigits 4 1,
    latency_p50_ms := 0, latency_p95_ms := 0, latency_p99_ms := 0,
    last_error := some "Check individual key logs",
    quota_remaining_pct := 100, current_key_index := 0 }

/-- Provider "alpha" with a single key and a circuit-breaker threshold of 1
(one failure opens the circuit). -/
def cfgTrip : ProviderConfig :=
  { provider_id := "alpha", api_keys := ["k1"], cb_failure_threshold := 1 }

/-- Alpha's key manager after one recorded failure at time 0: its only key's
circuit breaker is OPEN. -/
def kmTripped : KeyManager := (KeyManager.init cfgTrip).recordFailure 0 "boom" 0 0

/-- A gateway state for "alpha" wired the way `__init__` wires it: the
router holds the providers and the strategy, and — since `ProviderRouter`
has no key-manager parameter — its circuit/health/quota dicts are empty. -/
def gwTripped : Gateway :=
  { providers := [cfgTrip]
    key_managers := [("alpha", kmTripped)]
    router := { providers := [cfgTrip] } }

/-- Two usable keys with unlimited quota, for the C8 witness. -/
def cfgRR : ProviderConfig :=
  { provider_id := "w", api_keys := ["a", "b"], rpm_limit := 0, tpm_limit := 0 }

/-- The fresh key manager for `cfgRR`: both circuit breakers CLOSED, both
quota managers unlimited. -/
def kmRR : KeyManager := KeyManager.init cfgRR

/-- A tracker holding one successful sample with latency 100 at time 0. -/
def trackerEx : HealthTracker :=
  { provider_id := "alpha:key-0", window := 60,
    samples := [{ timestamp := 0, success := true, latency_ms := 100 }],
    latencies := [100], total_requests := 1, total_successes := 1 }

/-! ## Helper lemmas -/

namespace QuotaManager

theorem evict_rpm_limit (q : QuotaManager) (now : ℚ) :
    (q.evict now).rpm_limit = q.rpm_limit := rfl

theorem evict_tpm_limit (q : QuotaManager) (now : ℚ) :
    (q.evict now).tpm_limit = q.tpm_limit := rfl

theorem evict_records (q : QuotaManager) (now : ℚ) :
    (q.evict now).records = evictRecords (now - q.window) q.records := rfl

theorem evict_window (q : QuotaManager) (now : ℚ) :
    (q.evict now).window = q.window := rfl

theorem evictRecords_idem (cutoff : ℚ) (rs : List UsageRecord) :
    evictRecords cutoff (evictRecords cutoff rs) = evictRecords cutoff rs := by
  induction rs with
  | nil => rfl
  | cons r rs ih =>
    by_cases h : r.timestamp < cutoff
    · simp [evictRecords, h, ih]
    · simp [evictRecords, h]

theorem evict_idem (q : QuotaManager) (now : ℚ) :
    (q.evict now).evict now = q.evict now := by
  unfold evict
  simp only [evictRecords_idem]
  by_cases h : q.rpm_limit > 0 ∧
      (((evictRecords (now - q.window) q.records).length : ℚ) / (q.rpm_limit : ℚ) <
        q.warning_thr)
  · simp [h]
  · simp [h]

theorem canAccept_snd (q : QuotaManager) (est : Nat) (now : ℚ) :
    (q.canAccept est now).2 = q.evict now := by
  simp only [canAccept]
  split
  · rfl
  · split <;> rfl

theorem canAccept_fst_iff (q : QuotaManager) (est : Nat) (now : ℚ) :
    (q.canAccept est now).1 = true ↔
      ((q.rpm_limit = 0 ∨ (q.evict now).records.length < q.rpm_limit) ∧
       (q.tpm_limit = 0 ∨
         ((q.evict now).records.map (·.tokens)).sum + est ≤ q.tpm_limit)) := by
  simp only [canAccept]
  split
  · rename_i h1
    rw [evict_rpm_limit] at h1
    simp only [Prod.fst]
    constructor
    · intro h; exact absurd h (by simp)
    · intro h; omega
  · rename_i h1
    rw [evict_rpm_limit] at h1
    split
    · rename_i h2
      rw [evict_tpm_limit] at h2
      simp only [Prod.fst]
      constructor
      · intro h; exact absurd h (by simp)
      · intro h; omega
    · rename_i h2
      rw [evict_tpm_limit] at h2
      simp only [Prod.fst, true_iff]
      omega

theorem canAccept_fst_of_evict (q : QuotaManager) (est : Nat) (now : ℚ) :
    ((q.evict now).canAccept est now).1 = (q.canAccept est now).1 := by
  have h1 := canAccept_fst_iff (q.evict now) est now
  rw [evict_idem, evict_rpm_limit, evict_tpm_limit] at h1
  rw [← canAccept_fst_iff q est now] at h1
  cases b1 : ((q.evict now).canAccept est now).1 <;>
    cases b2 : (q.canAccept est now).1 <;> simp_all

end QuotaManager

/-! ## Claim C5 -/

/-- C5: for every QuotaManager, `can_accept(estTokens)` returns true if and
only if (rpmLimit = 0 or the number of usage records in the window is
strictly less than rpmLimit) and (tpmLimit = 0 or the sum of tokens in the
window plus estTokens is at most tpmLimit); in particular, for
rpmLimit = L > 0, once at least L usage records are within the window,
`can_accept(0)` returns false. -/
theorem claim_C5_quota_admission (q : QuotaManager) (est : Nat) (now : ℚ) :
    ((q.canAccept est now).1 = true ↔
      ((q.rpm_limit = 0 ∨ (q.evict now).records.length < q.rpm_limit) ∧
       (q.tpm_limit = 0 ∨
         ((q.evict now).records.map (·.tokens)).sum + est ≤ q.tpm_limit))) ∧
    (0 < q.rpm_limit → q.rpm_limit ≤ (q.evict now).records.length →
      (q.canAccept 0 now).1 = false) := by
  refine ⟨QuotaManager.canAccept_fst_iff q est now, fun hL hk => ?_⟩
  cases b : (q.canAccept 0 now).1
  · rfl
  · have h := (QuotaManager.canAccept_fst_iff q 0 now).mp b
    omega

theorem claim_C5_quota_admission_witness :
    0 < quotaAtLimit.rpm_limit ∧
    quotaAtLimit.rpm_limit ≤ (quotaAtLimit.evict 0).records.length ∧
    (quotaAtLimit.canAccept 0 0).1 = false := by
  have hlen : quotaAtLimit.rpm_limit ≤ (quotaAtLimit.evict 0).records.length := by
    norm_num [quotaAtLimit, QuotaManager.evict, QuotaManager.evictRecords]
  exact ⟨by decide, hlen,
    (claim_C5_quota_admission quotaAtLimit 0 0).2 (by decide) hlen⟩

/-! ## CircuitBreaker event semantics and lemmas -/

namespace CircuitBreaker

/-- Explicit form of `record_failure`: increment the counter, stamp the
failure time, and move HALF_OPEN→OPEN or (when the threshold is reached)
CLOSED→OPEN. -/
theorem recordFailure_eq (cb : CircuitBreaker) (t : ℚ) :
    cb.recordFailure t =
      { cb with
          consecutive_failures := cb.consecutive_failures + 1
          last_failure_time := t
          state :=
            if cb.state = .HALF_OPEN then .OPEN
            else if cb.state = .CLOSED ∧
                cb.consecutive_failures + 1 ≥ cb.failure_threshold then .OPEN
            else cb.state } := by
  simp only [recordFailure]
  split_ifs with h1 h2 <;> simp_all

theorem recordFailure_threshold (cb : CircuitBreaker) (t : ℚ) :
    (cb.recordFailure t).failure_threshold = cb.failure_threshold := by
  rw [recordFailure_eq]

theorem recordFailure_cooldown (cb : CircuitBreaker) (t : ℚ) :
    (cb.recordFailure t).cooldown = cb.cooldown := by
  rw [recordFailure_eq]

theorem recordFailure_consecutive (cb : CircuitBreaker) (t : ℚ) :
    (cb.recordFailure t).consecutive_failures = cb.consecutive_failures + 1 := by
  rw [recordFailure_eq]

theorem recordFailure_last (cb : CircuitBreaker) (t : ℚ) :
    (cb.recordFailure t).last_failure_time = t := by
  rw [recordFailure_eq]

theorem recordFailure_open (cb : CircuitBreaker) (t : ℚ) (h : cb.state = .OPEN) :
    (cb.recordFailure t).state = .OPEN := by
  rw [recordFailure_eq]; simp [h]

theorem recordFailure_closed_lt (cb : CircuitBreaker) (t : ℚ) (h : cb.state = .CLOSED)
    (hlt : cb.consecutive_failures + 1 < cb.failure_threshold) :
    (cb.recordFailure t).state = .CLOSED ∧
      (cb.recordFailure t).consecutive_failures = cb.consecutive_failures + 1 := by
  rw [recordFailure_eq]
  refine ⟨?_, rfl⟩
  simp only
  rw [if_neg (by simp [h]), if_neg (by omega), h]

theorem recordFailuresAt_threshold (cb : CircuitBreaker) (ts : List ℚ) :
    (recordFailuresAt cb ts).failure_threshold = cb.failure_threshold := by
  induction ts generalizing cb with
  | nil => rfl
  | cons t ts ih => rw [recordFailuresAt, ih, recordFailure_threshold]

theorem recordFailuresAt_cooldown (cb : CircuitBreaker) (ts : List ℚ) :
    (recordFailuresAt cb ts).cooldown = cb.cooldown := by
  induction ts generalizing cb with
  | nil => rfl
  | cons t ts ih => rw [recordFailuresAt, ih, recordFailure_cooldown]

theorem recordFailuresAt_open (cb : CircuitBreaker) (ts : List ℚ) (h : cb.state = .OPEN) :
    (recordFailuresAt cb ts).state = .OPEN := by
  induction ts generalizing cb with
  | nil => exact h
  | cons t ts ih => exact ih _ (recordFailure_open cb t h)

theorem recordFailuresAt_closed_lt (cb : CircuitBreaker) (ts : List ℚ)
    (h : cb.state = .CLOSED)
    (hlt : cb.consecutive_failures + ts.length < cb.failure_threshold) :
    (recordFailuresAt cb ts).state = .CLOSED ∧
      (recordFailuresAt cb ts).consecutive_failures =
        cb.consecutive_failures + ts.length := by
  induction ts generalizing cb with
  | nil => exact ⟨h, rfl⟩
  | cons t ts ih =>
    simp only [List.length_cons] at hlt
    have step := recordFailure_closed_lt cb t h (by omega)
    have hth := recordFailure_threshold cb t
    have hrec := ih (cb.recordFailure t) step.1 (by omega)
    rw [recordFailuresAt]
    refine ⟨hrec.1, ?_⟩
    have h2 := hrec.2
    have h3 := step.2
    simp only [List.length_cons]
    omega

theorem recordFailuresAt_trips_closed (ts : List ℚ) :
    ∀ (cb : CircuitBreaker), cb.state = .CLOSED → ts ≠ [] →
      cb.failure_threshold ≤ cb.consecutive_failures + ts.length →
      (recordFailuresAt cb ts).state = .OPEN := by
  induction ts with
  | nil => intro cb _ hne _; exact absurd rfl hne
  | cons t ts ih =>
    intro cb hs _ hlen
    rw [recordFailuresAt]
    by_cases hcf : cb.consecutive_failures + 1 ≥ cb.failure_threshold
    · have hop : (cb.recordFailure t).state = .OPEN := by
        rw [recordFailure_eq]
        simp only
        rw [if_neg (by simp [hs]), if_pos ⟨hs, hcf⟩]
      exact recordFailuresAt_open _ ts hop
    · have step := recordFailure_closed_lt cb t hs (by omega)
      have hth := recordFailure_threshold cb t
      simp only [List.length_cons] at hlen
      refine ih (cb.recordFailure t) step.1 ?_ (by omega)
      intro he
      rw [he] at hlen
      simp at hlen
      omega

theorem recordFailuresAt_trips (cb : CircuitBreaker) (ts : List ℚ)
    (hpos : 0 < cb.failure_threshold) (hlen : cb.failure_threshold ≤ ts.length) :
    (recordFailuresAt cb ts).state = .OPEN := by
  have hne : ts ≠ [] := by
    intro he; rw [he] at hlen; simp at hlen; omega
  rcases hs : cb.state with h | h | h
  · exact recordFailuresAt_trips_closed ts cb hs hne (by omega)
  · exact recordFailuresAt_open cb ts hs
  · rcases ts with _ | ⟨t, ts⟩
    · exact absurd rfl hne
    · rw [recordFailuresAt]
      have hop : (cb.recordFailure t).state = .OPEN := by
        rw [recordFailure_eq]; simp [hs]
      exact recordFailuresAt_open _ ts hop

theorem canExecute_fst_of_not_open (cb : CircuitBreaker) (t : ℚ)
    (h : cb.state ≠ .OPEN) : (cb.canExecute t).1 = true := by
  unfold canExecute maybeTransitionToHalfOpen
  split
  · rename_i hh; exact absurd hh.1 h
  · simpa using h

theorem canExecute_fst_open_cold (cb : CircuitBreaker) (t : ℚ)
    (h : cb.state = .OPEN) (hc : t - cb.last_failure_time < cb.cooldown) :
    (cb.canExecute t).1 = false := by
  unfold canExecute maybeTransitionToHalfOpen
  split
  · rename_i hh; linarith [hh.2]
  · simpa using h

end CircuitBreaker

/-! ## Claim C6 -/

/-- C6: for a CircuitBreaker with positive threshold `N` and positive
cooldown, (1) after `N` consecutive `record_failure` calls with no
interleaved `record_success` the state is OPEN (from any starting state of a
breaker with that threshold); (2) before the state becomes OPEN — i.e. after
fewer than `N` failures from the initial state — `can_execute()` returns
true; and (3) while the state is OPEN and less than the cooldown has elapsed
since the last failure, `can_execute()` returns false. -/
theorem claim_C6_breaker_trip (N : Nat) (cd : ℚ) (hN : 0 < N) (hcd : 0 < cd) :
    (∀ (cb : CircuitBreaker) (ts : List ℚ), cb.failure_threshold = N →
        ts.length = N → (recordFailuresAt cb ts).state = .OPEN) ∧
    (∀ (ts : List ℚ) (t : ℚ), ts.length < N →
        ((recordFailuresAt (freshCB N cd) ts).canExecute t).1 = true) ∧
    (∀ (ts : List ℚ) (t : ℚ), ts.length = N →
        t - (recordFailuresAt (freshCB N cd) ts).last_failure_time < cd →
        ((recordFailuresAt (freshCB N cd) ts).canExecute t).1 = false) := by
  refine ⟨fun cb ts hth hlen =>
    CircuitBreaker.recordFailuresAt_trips cb ts (by omega) (by omega),
    fun ts t hlt => ?_, fun ts t hlen hcold => ?_⟩
  · have h := CircuitBreaker.recordFailuresAt_closed_lt (freshCB N cd) ts rfl
      (by simpa [freshCB] using hlt)
    exact CircuitBreaker.canExecute_fst_of_not_open _ t (by rw [h.1]; simp)
  · have hopen : (recordFailuresAt (freshCB N cd) ts).state = .OPEN :=
      CircuitBreaker.recordFailuresAt_trips _ ts (by simpa [freshCB] using hN)
        (by simp [freshCB, hlen])
    refine CircuitBreaker.canExecute_fst_open_cold _ t hopen ?_
    rwa [CircuitBreaker.recordFailuresAt_cooldown]

theorem claim_C6_breaker_trip_witness :
    0 < 2 ∧ (0 : ℚ) < 30 ∧
    (recordFailuresAt (freshCB 2 30) [0, 1]).state = .OPEN :=
  ⟨by decide, by decide,
    (claim_C6_breaker_trip 2 30 (by decide) (by decide)).1 (freshCB 2 30) [0, 1] rfl rfl⟩

/-! ## Claim C4 -/

/-- C4 counterexample: the claim says the only transitions are CLOSED→OPEN,
OPEN→HALF_OPEN, HALF_OPEN→CLOSED and HALF_OPEN→OPEN (admin reset aside), so
a breaker in OPEN state could only leave it for HALF_OPEN after the
cooldown.  But `record_success()` unconditionally sets the state to CLOSED:
after one failure at time 0 (threshold 1), the breaker is OPEN, the cooldown
has not elapsed at time 0, and a `record_success` at that moment yields
CLOSED — an OPEN→CLOSED transition without passing through HALF_OPEN. -/
theorem claim_C4_counterexample :
    cbTripped.state = .OPEN ∧
    ((0 : ℚ) - cbTripped.last_failure_time < cbTripped.cooldown) ∧
    cbTripped.recordSuccess.state = .CLOSED := by
  refine ⟨rfl, ?_, rfl⟩
  show (0 : ℚ) - 0 < 30
  norm_num

/-- C4 (amended): for every CircuitBreaker and every
recordSuccess/recordFailure/state-observation event, either the state is
unchanged or the transition is one of: CLOSED→OPEN (recordFailure bringing
consecutiveFailures to at least the threshold), OPEN→HALF_OPEN (observation
after the cooldown has elapsed since the last failure), HALF_OPEN→CLOSED
(recordSuccess), HALF_OPEN→OPEN (recordFailure), or — the transition the
original claim excludes — OPEN→CLOSED (recordSuccess, which unconditionally
closes the circuit). -/
theorem claim_C4_amended_transitions (cb : CircuitBreaker) (e : CBEvent) :
    (e.apply cb).state = cb.state ∨
    (cb.state = .CLOSED ∧ (e.apply cb).state = .OPEN ∧
      ∃ t, e = .failure t ∧ cb.consecutive_failures + 1 ≥ cb.failure_threshold) ∨
    (cb.state = .OPEN ∧ (e.apply cb).state = .HALF_OPEN ∧
      ∃ t, e = .observe t ∧ t - cb.last_failure_time ≥ cb.cooldown) ∨
    (cb.state = .HALF_OPEN ∧ (e.apply cb).state = .OPEN ∧ ∃ t, e = .failure t) ∨
    (cb.state = .HALF_OPEN ∧ (e.apply cb).state = .CLOSED ∧ e = .success) ∨
    (cb.state = .OPEN ∧ (e.apply cb).state = .CLOSED ∧ e = .success) := by
  rcases e with _ | t | t
  · -- record_success
    rcases hs : cb.state with h | h | h
    · left; rfl
    · right; right; right; right; right; exact ⟨rfl, rfl, rfl⟩
    · right; right; right; right; left; exact ⟨rfl, rfl, rfl⟩
  · -- record_failure at t
    rcases hs : cb.state with h | h | h
    · by_cases hcf : cb.consecutive_failures + 1 ≥ cb.failure_threshold
      · right; left
        refine ⟨rfl, ?_, t, rfl, hcf⟩
        show (cb.recordFailure t).state = .OPEN
        rw [CircuitBreaker.recordFailure_eq]
        simp only
        rw [if_neg (by simp [hs]), if_pos ⟨hs, hcf⟩]
      · left
        show (cb.recordFailure t).state = .CLOSED
        rw [CircuitBreaker.recordFailure_eq]
        simp only
        rw [if_neg (by simp [hs]), if_neg (by omega)]
        exact hs
    · left
      show (cb.recordFailure t).state = .OPEN
      rw [CircuitBreaker.recordFailure_eq]
      simp only
      rw [if_neg (by simp [hs]), if_neg (by simp [hs])]
      exact hs
    · right; right; right; left
      refine ⟨rfl, ?_, t, rfl⟩
      show (cb.recordFailure t).state = .OPEN
      rw [CircuitBreaker.recordFailure_eq]; simp [hs]
  · -- state observation at t
    simp only [CBEvent.apply, CircuitBreaker.stateAt,
      CircuitBreaker.maybeTransitionToHalfOpen]
    split
    · rename_i hh
      right; right; left
      exact ⟨hh.1, rfl, t, rfl, hh.2⟩
    · left; rfl

/-! ## Claim C9 -/

namespace HealthTracker

theorem evict_eq (t : HealthTracker) (now : ℚ) :
    t.evict now =
      { t with
          samples := (evictLoop (now - t.window) t.samples t.latencies).1
          latencies := (evictLoop (now - t.window) t.samples t.latencies).2 } := rfl

theorem evictLoop_idem (cutoff : ℚ) (ss : List Sample) (lats : List ℚ) :
    evictLoop cutoff (evictLoop cutoff ss lats).1 (evictLoop cutoff ss lats).2 =
      evictLoop cutoff ss lats := by
  induction ss generalizing lats with
  | nil => rfl
  | cons s ss ih =>
    by_cases h : s.timestamp < cutoff
    · simp only [evictLoop, if_pos h]; exact ih _
    · simp only [evictLoop, if_neg h]

theorem evictLoop_append (cutoff : ℚ) (ss : List Sample) (lats : List ℚ) (s : Sample)
    (hs : ¬ s.timestamp < cutoff) :
    evictLoop cutoff (ss ++ [s]) lats =
      ((evictLoop cutoff ss lats).1 ++ [s], (evictLoop cutoff ss lats).2) := by
  induction ss generalizing lats with
  | nil => simp [evictLoop, hs]
  | cons a ss ih =>
    by_cases h : a.timestamp < cutoff
    · simp only [List.cons_append, evictLoop, if_pos h]; exact ih _
    · simp [evictLoop, if_neg h]

theorem evict_evict (t : HealthTracker) (now : ℚ) :
    (t.evict now).evict now = t.evict now := by
  rw [evict_eq t, evict_eq]
  simp only [evictLoop_idem]

theorem percentile_congr (x y : HealthTracker) (p : ℚ)
    (h : x.latencies = y.latencies) : x.percentile p = y.percentile p := by
  unfold percentile
  rw [h]

theorem health_p50 (t : HealthTracker) (now : ℚ) :
    (t.health now).latency_p50_ms = (t.evict now).percentile (1/2) := rfl

theorem health_p95 (t : HealthTracker) (now : ℚ) :
    (t.health now).latency_p95_ms = (t.evict now).percentile (95/100) := rfl

theorem health_p99 (t : HealthTracker) (now : ℚ) :
    (t.health now).latency_p99_ms = (t.evict now).percentile (99/100) := rfl

/-- A zero-latency `record_failure` appends the sample but leaves the sorted
latency list exactly as eviction alone would. -/
theorem recordFailure_zero_latencies (t : HealthTracker) (err : String) (now : ℚ)
    (hw : 0 ≤ t.window) :
    ((t.recordFailure err 0 now).evict now).latencies = (t.evict now).latencies := by
  have hz : ¬ ((0 : ℚ) > 0) := by norm_num
  rw [show t.recordFailure err 0 now =
      ({ t with
          samples := t.samples ++
            [({ timestamp := now, success := false, latency_ms := 0,
                error := some err } : Sample)]
          latencies := t.latencies
          total_requests := t.total_requests + 1
          total_failures := t.total_failures + 1
          consecutive_failures := t.consecutive_failures + 1
          last_error := some err
          last_error_time := some now } : HealthTracker).evict now by
    unfold recordFailure
    rw [if_neg hz]]
  rw [evict_evict, evict_eq, evict_eq t]
  simp only
  rw [evictLoop_append _ _ _ _ (by simp only; linarith)]

end HealthTracker

/-- C9: a `record_failure` call with `latency_ms = 0` leaves the latency
percentile values over the window unchanged: the p50/p95/p99 fields of the
health snapshot are the same immediately before and after such a call
(zero-latency failures do not enter the sorted latency list). -/
theorem claim_C9_zero_latency_failure (t : HealthTracker) (err : String) (now : ℚ)
    (hw : 0 ≤ t.window) :
    ((t.recordFailure err 0 now).health now).latency_p50_ms =
        (t.health now).latency_p50_ms ∧
    ((t.recordFailure err 0 now).health now).latency_p95_ms =
        (t.health now).latency_p95_ms ∧
    ((t.recordFailure err 0 now).health now).latency_p99_ms =
        (t.health now).latency_p99_ms := by
  have key := HealthTracker.recordFailure_zero_latencies t err now hw
  refine ⟨?_, ?_, ?_⟩
  · rw [HealthTracker.health_p50, HealthTracker.health_p50]
    exact HealthTracker.percentile_congr _ _ _ key
  · rw [HealthTracker.health_p95, HealthTracker.health_p95]
    exact HealthTracker.percentile_congr _ _ _ key
  · rw [HealthTracker.health_p99, HealthTracker.health_p99]
    exact HealthTracker.percentile_congr _ _ _ key

/-! ## upsert lemmas and Claim C2 -/

theorem lookup_map_replace {β : Type} (d : List (String × β)) (k : String) (v : β)
    (h : d.any (fun p => p.1 = k) = true) :
    List.lookup k (d.map (fun p => if p.1 = k then (k, v) else p)) = some v := by
  induction d with
  | nil => simp at h
  | cons p t ih =>
    obtain ⟨a, b⟩ := p
    simp only [List.any_cons, Bool.or_eq_true, decide_eq_true_eq] at h
    by_cases hp : a = k
    · simp only [List.map_cons, if_pos hp, List.lookup_cons]
      simp
    · have h' : t.any (fun p => p.1 = k) = true := by
        rcases h with h | h
        · exact absurd h hp
        · exact h
      have hb : (k == a) = false := by simp [Ne.symm hp]
      simp only [List.map_cons, if_neg hp, List.lookup_cons, hb]
      exact ih h'

theorem lookup_append_single {β : Type} (d : List (String × β)) (k : String) (v : β)
    (h : d.any (fun p => p.1 = k) = false) :
    List.lookup k (d ++ [(k, v)]) = some v := by
  induction d with
  | nil => simp
  | cons p t ih =>
    obtain ⟨a, b⟩ := p
    simp only [List.any_cons, Bool.or_eq_false_iff, decide_eq_false_iff_not] at h
    have hb : (k == a) = false := by simp [Ne.symm h.1]
    simp only [List.cons_append, List.lookup_cons, hb]
    exact ih h.2

theorem lookup_upsert {β : Type} (d : List (String × β)) (k : String) (v : β) :
    List.lookup k (upsert d k v) = some v := by
  unfold upsert
  split
  · rename_i h
    exact lookup_map_replace d k v h
  · rename_i h
    exact lookup_append_single d k v (by rwa [Bool.not_eq_true] at h)

theorem any_upsert {β : Type} (d : List (String × β)) (k : String) (v : β) :
    (upsert d k v).any (fun p => p.1 = k) = true := by
  unfold upsert
  split
  · rename_i h
    induction d with
    | nil => simp at h
    | cons p t ih =>
      obtain ⟨a, b⟩ := p
      simp only [List.any_cons, Bool.or_eq_true, decide_eq_true_eq] at h
      by_cases hp : a = k
      · simp [hp]
      · have h' : t.any (fun p => p.1 = k) = true := by
          rcases h with h | h
          · exact absurd h hp
          · exact h
        simp only [List.map_cons, if_neg hp, List.any_cons, Bool.or_eq_true,
          decide_eq_true_eq]
        exact Or.inr (ih h')
  · simp

theorem map_replace_idem {β : Type} (d : List (String × β)) (k : String) (v : β) :
    (d.map (fun p => if p.1 = k then (k, v) else p)).map
        (fun p => if p.1 = k then (k, v) else p) =
      d.map (fun p => if p.1 = k then (k, v) else p) := by
  induction d with
  | nil => rfl
  | cons p t ih =>
    simp only [List.map_cons, ih]
    by_cases hp : p.1 = k
    · simp [hp]
    · simp [hp]

theorem map_replace_of_absent {β : Type} (d : List (String × β)) (k : String) (v : β)
    (h : d.any (fun p => p.1 = k) = false) :
    d.map (fun p => if p.1 = k then (k, v) else p) = d := by
  induction d with
  | nil => rfl
  | cons p t ih =>
    simp only [List.any_cons, Bool.or_eq_false_iff, decide_eq_false_iff_not] at h
    simp only [List.map_cons, if_neg h.1, ih (by simp [h.2])]

theorem upsert_upsert_same {β : Type} (d : List (String × β)) (k : String) (v : β) :
    upsert (upsert d k v) k v = upsert d k v := by
  conv_lhs => rw [upsert]
  rw [if_pos (any_upsert d k v)]
  unfold upsert
  split
  · exact map_replace_idem d k v
  · rename_i h
    rw [List.map_append, map_replace_of_absent d k v (by rwa [Bool.not_eq_true] at h)]
    simp

theorem resetKeyState_idem (ks : KeyState) :
    Gateway.resetKeyState (Gateway.resetKeyState ks) = Gateway.resetKeyState ks := by
  simp [Gateway.resetKeyState, CircuitBreaker.reset, QuotaManager.reset]

/-- C2: the admin `reset_provider` operation (modelled from the spec: the
method is absent from `gateway.py` although the REST admin route and the
unit test `test_admin_reset` call it) forces every key's CircuitBreaker and
QuotaManager of the named provider to their initial state, and it is
idempotent: two consecutive resets equal one. -/
theorem claim_C2_reset_provider_idempotent (gw : Gateway) (pid : String) :
    (gw.resetProvider pid).resetProvider pid = gw.resetProvider pid ∧
    (∀ km', List.lookup pid (gw.resetProvider pid).key_managers = some km' →
      ∀ ks ∈ km'.keys,
        ks.circuit_breaker.state = .CLOSED ∧
        ks.circuit_breaker.consecutive_failures = 0 ∧
        ks.quota_manager.records = [] ∧
        ks.quota_manager.warning_emitted = false) := by
  cases h : List.lookup pid gw.key_managers with
  | none =>
    constructor
    · simp only [Gateway.resetProvider, h]
    · intro km' hk
      rw [show gw.resetProvider pid = gw by simp only [Gateway.resetProvider, h], h] at hk
      exact absurd hk (by simp)
  | some km =>
    have hres : gw.resetProvider pid =
        { gw with key_managers := upsert gw.key_managers pid { km with keys := km.keys.map Gateway.resetKeyState } } := by
      simp only [Gateway.resetProvider, h]
    constructor
    · rw [hres]
      simp only [Gateway.resetProvider, lookup_upsert]
      rw [List.map_map]
      have : km.keys.map (Gateway.resetKeyState ∘ Gateway.resetKeyState) =
          km.keys.map Gateway.resetKeyState := by
        apply List.map_congr_left
        intro ks _
        exact resetKeyState_idem ks
      rw [this, upsert_upsert_same]
    · intro km' hk
      rw [hres] at hk
      simp only [lookup_upsert] at hk
      cases hk
      intro ks hks
      simp only [List.mem_map] at hks
      obtain ⟨ks0, _, rfl⟩ := hks
      refine ⟨rfl, rfl, rfl, rfl⟩

theorem claim_C2_reset_provider_idempotent_witness :
    List.lookup "alpha" ((gwAlpha.resetProvider "alpha").key_managers) =
        some kmAlphaReset ∧
    ∀ ks ∈ kmAlphaReset.keys,
        ks.circuit_breaker.state = .CLOSED ∧
        ks.circuit_breaker.consecutive_failures = 0 ∧
        ks.quota_manager.records = [] ∧
        ks.quota_manager.warning_emitted = false :=
  ⟨rfl, (claim_C2_reset_provider_idempotent gwAlpha "alpha").2 kmAlphaReset rfl⟩

/-! ## Claim C1 -/

/-- C1: the claim says constructing the gateway never raises, but
`ResilientProviderGateway.__init__` (gateway.py lines 73–77) calls
`ProviderRouter(providers, strategy=strategy, key_managers=self._key_managers)`
while `ProviderRouter.__init__` (router.py lines 26–34) declares no
`key_managers` parameter and no `**kwargs`; Python therefore raises
`TypeError` on every construction, for every provider list and strategy. -/
theorem claim_C1_constructor_raises (providers : List ProviderConfig)
    (strategy : RoutingStrategy) (max_retries_per_provider : Nat)
    (backoff_base backoff_max : ℚ) :
    Gateway.init providers strategy max_retries_per_provider backoff_base backoff_max =
      .error "TypeError: ProviderRouter.__init__() got an unexpected keyword argument 'key_managers'" :=
  rfl

/-! ## Claim C10 -/

/-- C10: every health snapshot the gateway returns carries the hard-coded
placeholder fields — `quota_remaining_pct = 100`, all three latency
percentiles `0`, and the fixed `last_error` string — regardless of the
actual per-key quota usage and recorded latencies. -/
theorem claim_C10_health_placeholder (gw : Gateway) (pid : String) (now : ℚ)
    (h : ProviderHealth) (hg : gw.getHealth pid now = some h) :
    h.quota_remaining_pct = 100 ∧ h.latency_p50_ms = 0 ∧ h.latency_p95_ms = 0 ∧
      h.latency_p99_ms = 0 ∧ h.last_error = some "Check individual key logs" := by
  simp only [Gateway.getHealth] at hg
  split at hg
  · exact absurd hg (by simp)
  · cases hg
    exact ⟨rfl, rfl, rfl, rfl, rfl⟩

theorem claim_C10_health_placeholder_witness :
    gwAlpha.getHealth "alpha" 0 = some healthAlpha ∧
    (healthAlpha.quota_remaining_pct = 100 ∧ healthAlpha.latency_p50_ms = 0 ∧
      healthAlpha.latency_p95_ms = 0 ∧ healthAlpha.latency_p99_ms = 0 ∧
      healthAlpha.last_error = some "Check individual key logs") :=
  ⟨rfl, claim_C10_health_placeholder gwAlpha "alpha" 0 healthAlpha rfl⟩

/-! ## Claim C3 -/

theorem anyHealthy_false_of_all_blocked (km : KeyManager) (now : ℚ)
    (h : ∀ ks ∈ km.keys, (ks.circuit_breaker.canExecute now).1 = false) :
    km.anyHealthy now = false := by
  unfold KeyManager.anyHealthy
  rw [List.any_eq_false]
  intro ks hks
  simp [h ks hks]

/-- C3: the claim says the router's candidate filter drops a provider whose
KeyManager reports `any_healthy() == false`, so a provider all of whose keys
have open circuit breakers never appears in the fallback chain.  The code's
`_filter_candidates` never consults the KeyManager: it only checks the
router-level `circuit_breakers`/`health_trackers`/`quota_managers` dicts,
which the gateway wiring leaves empty.  At time 0, alpha's only key has an
OPEN breaker (`any_healthy` is false, cooldown not elapsed), yet alpha is
the fallback chain built for an `execute` call. -/
theorem claim_C3_filter_ignores_key_health :
    List.lookup "alpha" gwTripped.key_managers = some kmTripped ∧
    kmTripped.anyHealthy 0 = false ∧
    gwTripped.buildChain none 0 0 = [cfgTrip] := by
  refine ⟨rfl, ?_, rfl⟩
  refine anyHealthy_false_of_all_blocked _ _ ?_
  intro ks hks
  have hmap : kmTripped.keys.map (fun k => k.circuit_breaker) =
      [{ failure_threshold := 1, cooldown := 30, state := .OPEN,
         consecutive_failures := 1, last_failure_time := 0 }] := rfl
  have hcb : ks.circuit_breaker =
      { failure_threshold := 1, cooldown := 30, state := .OPEN,
        consecutive_failures := 1, last_failure_time := 0 } := by
    have : ks.circuit_breaker ∈ kmTripped.keys.map (fun k => k.circuit_breaker) :=
      List.mem_map_of_mem _ hks
    rw [hmap] at this
    simpa using this
  rw [hcb]
  refine CircuitBreaker.canExecute_fst_open_cold _ _ rfl ?_
  show (0 : ℚ) - 0 < 30
  norm_num

/-! ## Claim C7 -/

theorem lookup_map_replace_ne {β : Type} (d : List (String × β)) (k k' : String) (v : β)
    (hne : k' ≠ k) :
    List.lookup k' (d.map (fun p => if p.1 = k then (k, v) else p)) =
      List.lookup k' d := by
  induction d with
  | nil => rfl
  | cons p t ih =>
    obtain ⟨a, b⟩ := p
    by_cases hp : a = k
    · simp only [List.map_cons]
      rw [if_pos hp]
      have hb : (k' == k) = false := by simp [hne]
      have hb' : (k' == a) = false := by simp [hp ▸ hne]
      simp only [List.lookup_cons, hb, hb']
      exact ih
    · simp only [List.map_cons, if_neg hp, List.lookup_cons]
      cases hb : (k' == a) <;> simp [ih]

theorem lookup_append_single_ne {β : Type} (d : List (String × β)) (k k' : String)
    (v : β) (hne : k' ≠ k) :
    List.lookup k' (d ++ [(k, v)]) = List.lookup k' d := by
  induction d with
  | nil =>
    have hb : (k' == k) = false := by simp [hne]
    simp [List.lookup_cons, hb]
  | cons p t ih =>
    obtain ⟨a, b⟩ := p
    simp only [List.cons_append, List.lookup_cons]
    cases hb : (k' == a) <;> simp [ih]

theorem lookup_upsert_ne {β : Type} (d : List (String × β)) (k k' : String) (v : β)
    (hne : k' ≠ k) :
    List.lookup k' (upsert d k v) = List.lookup k' d := by
  unfold upsert
  split
  · exact lookup_map_replace_ne d k k' v hne
  · exact lookup_append_single_ne d k k' v hne

theorem lookup_upsert_isSome {β : Type} (d : List (String × β)) (k k' : String) (v : β)
    (h : (List.lookup k' d).isSome = true) :
    (List.lookup k' (upsert d k v)).isSome = true := by
  by_cases hk : k' = k
  · subst hk; rw [lookup_upsert]; rfl
  · rw [lookup_upsert_ne d k k' v hk]; exact h

theorem mem_upsert {β : Type} (d : List (String × β)) (k : String) (v : β) :
    ∀ pr ∈ upsert d k v, pr ∈ d ∨ pr = (k, v) := by
  unfold upsert
  split
  · intro pr hpr
    rw [List.mem_map] at hpr
    obtain ⟨p, hp, rfl⟩ := hpr
    by_cases hk : p.1 = k
    · right; simp [hk]
    · left; simpa [hk] using hp
  · intro pr hpr
    rcases List.mem_append.mp hpr with h | h
    · exact Or.inl h
    · right; simpa using h

theorem tryAttempts_success {T : Type} (cfg : ProviderConfig)
    (reqFn : ProviderConfig → String → Nat → RequestOutcome T)
    (latency : Nat → ℚ) (est : Nat) (now : ℚ) :
    ∀ (fuel : Nat) (km : KeyManager) (calls : Nat) (v : T),
      (Gateway.tryAttempts cfg reqFn latency est now fuel km calls).1 = .success v →
      ∃ key n, reqFn cfg key n = .ok v := by
  intro fuel
  induction fuel with
  | zero => intro km calls v h; exact absurd h (by simp [Gateway.tryAttempts])
  | succ fuel ih =>
    intro km calls v h
    rw [Gateway.tryAttempts] at h
    rcases hsel : km.selectKey est now with ⟨ks?, km'⟩
    rw [hsel] at h
    cases ks? with
    | none => exact absurd h (by simp)
    | some ks =>
      simp only at h
      rcases hreq : reqFn cfg ks.api_key calls with v' | _ | msg <;> rw [hreq] at h
      · refine ⟨ks.api_key, calls, ?_⟩
        simp only at h
        cases h
        exact hreq
      · exact ih _ _ _ h
      · exact ih _ _ _ h

theorem tryProvider_none_errors {T : Type} (cfg : ProviderConfig)
    (reqFn : ProviderConfig → String → Nat → RequestOutcome T)
    (latency : Nat → ℚ) (est : Nat) (now : ℚ)
    (km : KeyManager) (errors : List (String × String)) (calls : Nat) :
    ∀ pr ∈ (Gateway.tryProvider cfg reqFn latency est now km errors calls).2.2.1,
      pr ∈ errors ∨ pr.2 = "no_usable_keys" ∨ pr.2 = "exhausted_attempts" := by
  simp only [Gateway.tryProvider]
  rcases htry : Gateway.tryAttempts cfg reqFn latency est now
      (min (cfg.max_retries + 1) (max km.key_count 1)) km calls with ⟨res, km', calls'⟩
  cases res with
  | success v => intro pr hpr; exact Or.inl hpr
  | noUsableKeys =>
    intro pr hpr
    rcases mem_upsert errors cfg.provider_id "no_usable_keys" pr hpr with h | h
    · exact Or.inl h
    · right; left; rw [h]
  | exhaustedAttempts =>
    intro pr hpr
    rcases mem_upsert errors cfg.provider_id "exhausted_attempts" pr hpr with h | h
    · exact Or.inl h
    · right; right; rw [h]

theorem tryProvider_some {T : Type} (cfg : ProviderConfig)
    (reqFn : ProviderConfig → String → Nat → RequestOutcome T)
    (latency : Nat → ℚ) (est : Nat) (now : ℚ)
    (km : KeyManager) (errors : List (String × String)) (calls : Nat) (v : T)
    (h : (Gateway.tryProvider cfg reqFn latency est now km errors calls).1 = some v) :
    ∃ key n, reqFn cfg key n = .ok v := by
  simp only [Gateway.tryProvider] at h
  rcases htry : Gateway.tryAttempts cfg reqFn latency est now
      (min (cfg.max_retries + 1) (max km.key_count 1)) km calls with ⟨res, km', calls'⟩
  rw [htry] at h
  cases res with
  | success v' =>
    simp only [Option.some.injEq] at h
    subst h
    exact tryAttempts_success cfg reqFn latency est now _ km calls v' (by rw [htry])
  | noUsableKeys => exact absurd h (by simp)
  | exhaustedAttempts => exact absurd h (by simp)

theorem executeChain_spec {T : Type}
    (reqFn : ProviderConfig → String → Nat → RequestOutcome T)
    (latency : Nat → ℚ) (est : Nat) (now : ℚ) :
    ∀ (chain : List ProviderConfig) (attempted : List String)
      (kms : List (String × KeyManager)) (errors : List (String × String)) (calls : Nat),
      (∀ cfg ∈ chain, (List.lookup cfg.provider_id kms).isSome = true) →
      (∀ pr ∈ errors, pr.2 = "no_usable_keys" ∨ pr.2 = "exhausted_attempts") →
      match (Gateway.executeChain reqFn latency est now chain attempted kms errors calls).1 with
      | .ok v => ∃ cfg key n, cfg ∈ chain ∧ reqFn cfg key n = .ok v
      | .exhausted errs =>
          ∀ pr ∈ errs, pr.2 = "no_usable_keys" ∨ pr.2 = "exhausted_attempts"
      | .keyError _ => False := by
  intro chain
  induction chain with
  | nil =>
    intro attempted kms errors calls _ herr
    exact herr
  | cons cfg rest ih =>
    intro attempted kms errors calls hwf herr
    rw [Gateway.executeChain]
    by_cases hatt : attempted.contains cfg.provider_id
    · rw [if_pos hatt]
      have := ih attempted kms errors calls
        (fun c hc => hwf c (List.mem_cons_of_mem _ hc)) herr
      revert this
      cases hres : (Gateway.executeChain reqFn latency est now rest attempted kms errors calls).1 with
      | ok v =>
        intro hspec
        obtain ⟨c, key, n, hc, hr⟩ := hspec
        exact ⟨c, key, n, List.mem_cons_of_mem _ hc, hr⟩
      | exhausted errs => intro hspec; exact hspec
      | keyError p => intro hspec; exact hspec
    · rw [if_neg hatt]
      have hsome := hwf cfg (List.mem_cons_self _ _)
      rcases hlk : List.lookup cfg.provider_id kms with _ | km
      · rw [hlk] at hsome; exact absurd hsome (by simp)
      · simp only
        rcases htry : Gateway.tryProvider cfg reqFn latency est now km errors calls
          with ⟨res, km', errors', calls'⟩
        cases res with
        | some v =>
          simp only
          exact ⟨cfg, by
            have := tryProvider_some cfg reqFn latency est now km errors calls v (by rw [htry])
            obtain ⟨key, n, hr⟩ := this
            exact ⟨key, n, List.mem_cons_self _ _, hr⟩⟩
        | none =>
          simp only
          have herr' : ∀ pr ∈ errors',
              pr.2 = "no_usable_keys" ∨ pr.2 = "exhausted_attempts" := by
            intro pr hpr
            have hmem : pr ∈ (Gateway.tryProvider cfg reqFn latency est now km errors calls).2.2.1 := by
              rw [htry]; exact hpr
            rcases tryProvider_none_errors cfg reqFn latency est now km errors calls pr hmem
              with h | h | h
            · exact herr pr h
            · exact Or.inl h
            · exact Or.inr h
          have hwf' : ∀ c ∈ rest,
              (List.lookup c.provider_id (upsert kms cfg.provider_id km')).isSome = true :=
            fun c hc => lookup_upsert_isSome kms cfg.provider_id c.provider_id km'
              (hwf c (List.mem_cons_of_mem _ hc))
          have := ih (attempted ++ [cfg.provider_id]) (upsert kms cfg.provider_id km')
            errors' calls' hwf' herr'
          revert this
          cases hres : (Gateway.executeChain reqFn latency est now rest
              (attempted ++ [cfg.provider_id]) (upsert kms cfg.provider_id km')
              errors' calls').1 with
          | ok v =>
            intro hspec
            obtain ⟨c, key, n, hc, hr⟩ := hspec
            exact ⟨c, key, n, List.mem_cons_of_mem _ hc, hr⟩
          | exhausted errs => intro hspec; exact hspec
          | keyError p => intro hspec; exact hspec

theorem mem_insertSorted {α : Type} (le : α → α → Bool) (x a : α) (l : List α)
    (h : a ∈ insertSorted le x l) : a = x ∨ a ∈ l := by
  induction l with
  | nil => simpa [insertSorted] using h
  | cons b t ih =>
    unfold insertSorted at h
    split at h
    · rcases List.mem_cons.mp h with h | h
      · right; exact List.mem_cons.mpr (Or.inl h)
      · rcases ih h with h | h
        · exact Or.inl h
        · right; exact List.mem_cons.mpr (Or.inr h)
    · rcases List.mem_cons.mp h with h | h
      · exact Or.inl h
      · exact Or.inr h

theorem mem_stableSort {α : Type} (le : α → α → Bool) (a : α) (l : List α)
    (h : a ∈ stableSort le l) : a ∈ l := by
  induction l with
  | nil => simpa [stableSort] using h
  | cons b t ih =>
    unfold stableSort at h
    rcases mem_insertSorted le b a _ h with h | h
    · exact h ▸ List.mem_cons_self _ _
    · exact List.mem_cons_of_mem _ (ih h)

theorem getFallbackChain_subset (router : ProviderRouter) (exclude : List String)
    (est : Nat) (now : ℚ) :
    ∀ cfg ∈ router.getFallbackChain exclude est now, cfg ∈ router.providers := by
  intro cfg h
  have h1 := mem_stableSort _ cfg _ h
  exact List.mem_of_mem_filter h1

theorem buildChain_subset (gw : Gateway) (preferred : Option String) (est : Nat)
    (now : ℚ) :
    ∀ cfg ∈ gw.buildChain preferred est now, cfg ∈ gw.router.providers := by
  intro cfg h
  unfold Gateway.buildChain at h
  have hchain := getFallbackChain_subset gw.router [] est now
  cases preferred with
  | none => exact hchain cfg h
  | some p =>
    simp only at h
    split at h
    · exact hchain cfg h
    · split at h
      · exact hchain cfg h
      · rename_i c hfind
        rcases List.mem_cons.mp h with h | h
        · exact hchain cfg (h ▸ List.mem_of_find?_eq_some hfind)
        · exact hchain cfg (List.erase_subset _ _ h)

/-- C7: for every request function and gateway state (with a key manager for
every configured provider, as construction guarantees), `execute` either
returns a value produced by a successful `request_fn` call or raises
`AllProvidersExhaustedError`; an exception raised by `request_fn` is never
re-raised to the caller — it is recorded per-key, and the per-provider
reason map contains only the aggregate reasons `"no_usable_keys"` and
`"exhausted_attempts"`. -/
theorem claim_C7_execute_propagation {T : Type} (gw : Gateway)
    (reqFn : ProviderConfig → String → Nat → RequestOutcome T)
    (latency : Nat → ℚ) (est : Nat) (preferred : Option String) (now : ℚ)
    (hwf : ∀ cfg ∈ gw.router.providers,
      (List.lookup cfg.provider_id gw.key_managers).isSome = true) :
    (∀ v, (gw.execute reqFn latency est preferred now).1 = .ok v →
        ∃ cfg key n, cfg ∈ gw.router.providers ∧ reqFn cfg key n = .ok v) ∧
    (∀ errs, (gw.execute reqFn latency est preferred now).1 = .exhausted errs →
        ∀ pr ∈ errs, pr.2 = "no_usable_keys" ∨ pr.2 = "exhausted_attempts") ∧
    (∀ pid, (gw.execute reqFn latency est preferred now).1 ≠ .keyError pid) := by
  have hsub := buildChain_subset gw preferred est now
  have hspec := executeChain_spec reqFn latency est now
    (gw.buildChain preferred est now) [] gw.key_managers [] 0
    (fun cfg hc => hwf cfg (hsub cfg hc)) (by simp)
  have hexe : gw.execute reqFn latency est preferred now =
      Gateway.executeChain reqFn latency est now
        (gw.buildChain preferred est now) [] gw.key_managers [] 0 := rfl
  rw [← hexe] at hspec
  refine ⟨?_, ?_, ?_⟩
  · intro v hv
    rw [hv] at hspec
    obtain ⟨cfg, key, n, hc, hr⟩ := hspec
    exact ⟨cfg, key, n, hsub cfg hc, hr⟩
  · intro errs herrs
    rw [herrs] at hspec
    exact hspec
  · intro pid hpid
    rw [hpid] at hspec
    exact hspec

theorem claim_C7_execute_propagation_witness :
    (∀ cfg ∈ gwAlpha.router.providers,
      (List.lookup cfg.provider_id gwAlpha.key_managers).isSome = true) ∧
    ((∀ v, (gwAlpha.execute (fun cfg key _ => RequestOutcome.ok (cfg.provider_id ++ ":" ++ key))
          (fun _ => 0) 0 none 0).1 = .ok v →
        ∃ cfg key n, cfg ∈ gwAlpha.router.providers ∧
          (fun (cfg : ProviderConfig) (key : String) (_ : Nat) =>
            RequestOutcome.ok (cfg.provider_id ++ ":" ++ key)) cfg key n = .ok v) ∧
    (∀ errs, (gwAlpha.execute (fun cfg key _ => RequestOutcome.ok (cfg.provider_id ++ ":" ++ key))
          (fun _ => 0) 0 none 0).1 = .exhausted errs →
        ∀ pr ∈ errs, pr.2 = "no_usable_keys" ∨ pr.2 = "exhausted_attempts") ∧
    (∀ pid, (gwAlpha.execute (fun cfg key _ => RequestOutcome.ok (cfg.provider_id ++ ":" ++ key))
          (fun _ => 0) 0 none 0).1 ≠ .keyError pid)) :=
  ⟨by decide,
    claim_C7_execute_propagation gwAlpha
      (fun cfg key _ => RequestOutcome.ok (cfg.provider_id ++ ":" ++ key))
      (fun _ => 0) 0 none 0 (by decide)⟩

/-! ## Claim C8 -/

theorem CircuitBreaker.canExecute_not_open_eq (cb : CircuitBreaker) (t : ℚ)
    (h : cb.state ≠ .OPEN) : cb.canExecute t = (true, cb) := by
  unfold CircuitBreaker.canExecute CircuitBreaker.maybeTransitionToHalfOpen
  rw [if_neg (by tauto)]
  simp [h]

theorem scanKeys_first_usable (est : Nat) (now : ℚ) (keys : List KeyState) (idx : Nat)
    (rest : List Nat) (hidx : idx < keys.length)
    (hcb : (keys.get ⟨idx, hidx⟩).circuit_breaker.state ≠ .OPEN)
    (hq : ((keys.get ⟨idx, hidx⟩).quota_manager.canAccept est now).1 = true) :
    KeyManager.scanKeys est now (idx :: rest) keys =
      (some idx, keys.set idx
        { keys.get ⟨idx, hidx⟩ with
            circuit_breaker := (keys.get ⟨idx, hidx⟩).circuit_breaker
            quota_manager :=
              ((keys.get ⟨idx, hidx⟩).quota_manager.canAccept est now).2 }) := by
  have hget : keys[idx]? = some (keys.get ⟨idx, hidx⟩) := by
    rw [List.getElem?_eq_getElem hidx]
    rfl
  have hpair : (keys.get ⟨idx, hidx⟩).quota_manager.canAccept est now =
      (true, ((keys.get ⟨idx, hidx⟩).quota_manager.canAccept est now).2) := by
    rw [← hq]
  simp only [KeyManager.scanKeys, hget]
  rw [CircuitBreaker.canExecute_not_open_eq _ _ hcb]
  simp only [Bool.not_true, Bool.false_eq_true, if_false]
  rw [hpair]
  simp

theorem selectKeyIdx_step (km : KeyManager) (est : Nat) (now : ℚ)
    (hk : 0 < km.keys.length) (hrr : km.rr_index < km.keys.length)
    (hus : ∀ ks ∈ km.keys, ks.circuit_breaker.state ≠ .OPEN ∧
      (ks.quota_manager.canAccept est now).1 = true) :
    (km.selectKeyIdx est now).1 = some km.rr_index ∧
    (km.selectKeyIdx est now).2.keys.length = km.keys.length ∧
    (km.selectKeyIdx est now).2.rr_index = (km.rr_index + 1) % km.keys.length ∧
    (∀ ks ∈ (km.selectKeyIdx est now).2.keys, ks.circuit_breaker.state ≠ .OPEN ∧
      (ks.quota_manager.canAccept est now).1 = true) := by
  have hmem := List.get_mem km.keys km.rr_index hrr
  have husel := hus _ hmem
  have hrest : ∃ rest, KeyManager.scanOrder km.rr_index km.keys.length =
      km.rr_index :: rest := by
    obtain ⟨c, hc⟩ : ∃ c, km.keys.length = c + 1 := ⟨km.keys.length - 1, by omega⟩
    refine ⟨((List.range c).map Nat.succ).map
      (fun i => (km.rr_index + i) % (c + 1)), ?_⟩
    unfold KeyManager.scanOrder
    conv_lhs => rw [hc, List.range_succ_eq_map]
    rw [List.map_cons, List.map_map]
    congr 1
    rw [Nat.add_zero]
    exact Nat.mod_eq_of_lt (by omega)
  obtain ⟨rest, hrest⟩ := hrest
  have hscan := scanKeys_first_usable est now km.keys km.rr_index rest hrr husel.1 husel.2
  simp only [KeyManager.selectKeyIdx]
  rw [if_neg (by omega), hrest, hscan]
  refine ⟨?_, ?_, ?_, ?_⟩
  · rfl
  · simp
  · rfl
  · intro ks2 hks2
    rcases List.mem_or_eq_of_mem_set hks2 with h | h
    · exact hus ks2 h
    · subst h
      refine ⟨husel.1, ?_⟩
      show ((((km.keys.get ⟨km.rr_index, hrr⟩).quota_manager.canAccept est now).2).canAccept
        est now).1 = true
      rw [QuotaManager.canAccept_snd, QuotaManager.canAccept_fst_of_evict]
      exact husel.2

theorem selectKeys_spec (est : Nat) (now : ℚ) (k : Nat) (hk : 0 < k) :
    ∀ (M : Nat) (km : KeyManager), km.keys.length = k → km.rr_index < k →
      (∀ ks ∈ km.keys, ks.circuit_breaker.state ≠ .OPEN ∧
        (ks.quota_manager.canAccept est now).1 = true) →
      (selectKeys est now M km).1 =
        (List.range M).map (fun i => (km.rr_index + i) % k) ∧
      (selectKeys est now M km).2.rr_index = (km.rr_index + M) % k := by
  intro M
  induction M with
  | zero =>
    intro km hlen hrr hus
    exact ⟨rfl, by simp [selectKeys, Nat.mod_eq_of_lt hrr]⟩
  | succ M ih =>
    intro km hlen hrr hus
    obtain ⟨h1, h2, h3, h4⟩ :=
      selectKeyIdx_step km est now (by omega) (by omega) hus
    have hpair : km.selectKeyIdx est now =
        (some km.rr_index, (km.selectKeyIdx est now).2) := by rw [← h1]
    rw [selectKeys, hpair]
    simp only
    have hrr' : (km.selectKeyIdx est now).2.rr_index < k := by
      rw [h3, hlen]
      exact Nat.mod_lt _ hk
    have ihs := ih (km.selectKeyIdx est now).2 (by rw [h2, hlen]) hrr' h4
    constructor
    · show km.rr_index :: (selectKeys est now M (km.selectKeyIdx est now).2).1 = _
      rw [ihs.1, h3, hlen, List.range_succ_eq_map, List.map_cons, List.map_map]
      congr 1
      · rw [Nat.add_zero, Nat.mod_eq_of_lt hrr]
      · apply List.map_congr_left
        intro i _
        show ((km.rr_index + 1) % k + i) % k = _
        rw [Nat.mod_add_mod]
        congr 1
        omega
    · show (selectKeys est now M (km.selectKeyIdx est now).2).2.rr_index = _
      rw [ihs.2, h3, hlen, Nat.mod_add_mod]
      congr 1
      omega

theorem mod_shift_point (k r j : Nat) (hk : 0 < k) (hj : j < k) (m : Nat) :
    ((r + m) % k = j) ↔ (m % k = (j + k - r % k) % k) := by
  have ha : r % k < k := Nat.mod_lt _ hk
  have hm : m % k < k := Nat.mod_lt _ hk
  have h1 : (r + m) % k = (r % k + m % k) % k := by
    conv_lhs => rw [Nat.add_mod]
  have h2 : (r % k + m % k) % k =
      if r % k + m % k < k then r % k + m % k else r % k + m % k - k := by
    split
    · exact Nat.mod_eq_of_lt (by assumption)
    · rename_i hge
      push_neg at hge
      rw [Nat.mod_eq_sub_mod hge, Nat.mod_eq_of_lt (by omega)]
  have h3 : (j + k - r % k) % k =
      if j < r % k then j + k - r % k else j - r % k := by
    split
    · exact Nat.mod_eq_of_lt (by omega)
    · rename_i hge
      push_neg at hge
      have he : j + k - r % k = (j - r % k) + k := by omega
      rw [he, Nat.add_mod_right, Nat.mod_eq_of_lt (by omega)]
  rw [h1, h2, h3]
  split <;> split <;> omega

theorem countP_range_mod (k r j : Nat) (hk : 0 < k) (hj : j < k) :
    ∀ M, (List.range M).countP (fun i => decide ((r + i) % k = j)) =
      M / k + (if (j + k - r % k) % k < M % k then 1 else 0) := by
  intro M
  induction M with
  | zero => simp
  | succ M ih =>
    rw [List.range_succ, List.countP_append, ih]
    have hd : (j + k - r % k) % k < k := Nat.mod_lt _ hk
    have hs : M % k < k := Nat.mod_lt _ hk
    have hdm := Nat.div_add_mod M k
    rcases Nat.lt_or_ge (M % k + 1) k with hlt | hge
    · have he : M + 1 = k * (M / k) + (M % k + 1) := by omega
      have e1 : (M + 1) / k = M / k := by
        rw [he, Nat.mul_add_div hk, Nat.div_eq_of_lt hlt, Nat.add_zero]
      have e2 : (M + 1) % k = M % k + 1 := by
        rw [he, Nat.mul_add_mod, Nat.mod_eq_of_lt hlt]
      rw [e1, e2]
      by_cases hp : (r + M) % k = j
      · have hmd : M % k = (j + k - r % k) % k := (mod_shift_point k r j hk hj M).mp hp
        simp only [List.countP_cons, List.countP_nil, decide_eq_true_eq]
        rw [if_pos hp]
        split_ifs <;> omega
      · have hmd : ¬ (M % k = (j + k - r % k) % k) :=
          fun h => hp ((mod_shift_point k r j hk hj M).mpr h)
        simp only [List.countP_cons, List.countP_nil, decide_eq_true_eq]
        rw [if_neg hp]
        split_ifs <;> omega
    · have hk1 : M % k + 1 = k := by omega
      have he : M + 1 = k * (M / k + 1) := by rw [Nat.mul_succ]; omega
      have e1 : (M + 1) / k = M / k + 1 := by
        rw [he, Nat.mul_div_cancel_left _ hk]
      have e2 : (M + 1) % k = 0 := by
        rw [he, Nat.mul_mod_right]
      rw [e1, e2]
      by_cases hp : (r + M) % k = j
      · have hmd : M % k = (j + k - r % k) % k := (mod_shift_point k r j hk hj M).mp hp
        simp only [List.countP_cons, List.countP_nil, decide_eq_true_eq]
        rw [if_pos hp]
        split_ifs <;> omega
      · have hmd : ¬ (M % k = (j + k - r % k) % k) :=
          fun h => hp ((mod_shift_point k r j hk hj M).mpr h)
        simp only [List.countP_cons, List.countP_nil, decide_eq_true_eq]
        rw [if_neg hp]
        split_ifs <;> omega

theorem count_range_mod (k r j : Nat) (hk : 0 < k) (hj : j < k) (M : Nat) :
    ((List.range M).map (fun i => (r + i) % k)).count j = M / k ∨
    ((List.range M).map (fun i => (r + i) % k)).count j = (M + k - 1) / k := by
  have hcount : ((List.range M).map (fun i => (r + i) % k)).count j =
      (List.range M).countP (fun i => decide ((r + i) % k = j)) := by
    rw [List.count_eq_countP, List.countP_map]
    rfl
  rw [hcount, countP_range_mod k r j hk hj M]
  have hdm := Nat.div_add_mod M k
  have hs : M % k < k := Nat.mod_lt _ hk
  by_cases hcase : (j + k - r % k) % k < M % k
  · right
    rw [if_pos hcase]
    have hpos : 0 < M % k := by omega
    have he : M + k - 1 = k * (M / k) + ((M % k - 1) + k) := by omega
    rw [he, Nat.mul_add_div hk, Nat.add_div_right _ hk,
      Nat.div_eq_of_lt (show M % k - 1 < k by omega)]
  · left
    rw [if_neg hcase, Nat.add_zero]

/-- C8: for a KeyManager whose keys are all usable (every circuit breaker
admits — state not OPEN — and every quota manager admits `estTokens`), over
`M ≥ k` consecutive `select_key` calls with nothing recorded in between,
each key position `j < k` is selected either `⌊M/k⌋` or `⌈M/k⌉` times (in ℕ,
`⌈M/k⌉ = (M + k - 1) / k`); the selections walk the round-robin order
`rr, rr+1, …` mod `k`, and each selection advances the cursor to just past
the selected index. -/
theorem claim_C8_round_robin (km : KeyManager) (est : Nat) (now : ℚ) (M : Nat)
    (hk : 0 < km.keys.length) (hrr : km.rr_index < km.keys.length)
    (hM : km.keys.length ≤ M)
    (hus : ∀ ks ∈ km.keys, ks.circuit_breaker.state ≠ .OPEN ∧
        (ks.quota_manager.canAccept est now).1 = true) :
    (∀ j < km.keys.length,
        (selectKeys est now M km).1.count j = M / km.keys.length ∨
        (selectKeys est now M km).1.count j =
          (M + km.keys.length - 1) / km.keys.length) ∧
    (selectKeys est now M km).1 =
      (List.range M).map (fun i => (km.rr_index + i) % km.keys.length) ∧
    (km.selectKeyIdx est now).1 = some km.rr_index ∧
    (km.selectKeyIdx est now).2.rr_index =
      (km.rr_index + 1) % km.keys.length := by
  obtain ⟨hsel, _⟩ := selectKeys_spec est now km.keys.length hk M km rfl hrr hus
  obtain ⟨h1, _, h3, _⟩ := selectKeyIdx_step km est now hk hrr hus
  refine ⟨?_, hsel, h1, h3⟩
  intro j hj
  rw [hsel]
  exact count_range_mod km.keys.length km.rr_index j hk hj M

theorem claim_C8_round_robin_witness :
    0 < kmRR.keys.length ∧ kmRR.rr_index < kmRR.keys.length ∧
    kmRR.keys.length ≤ 5 ∧
    (∀ ks ∈ kmRR.keys, ks.circuit_breaker.state ≠ .OPEN ∧
        (ks.quota_manager.canAccept 0 0).1 = true) ∧
    (∀ j < kmRR.keys.length,
        (selectKeys 0 0 5 kmRR).1.count j = 5 / kmRR.keys.length ∨
        (selectKeys 0 0 5 kmRR).1.count j =
          (5 + kmRR.keys.length - 1) / kmRR.keys.length) :=
  ⟨by decide, by decide, by decide, by decide,
    (claim_C8_round_robin kmRR 0 0 5 (by decide) (by decide) (by decide) (by decide)).1⟩

theorem claim_C9_zero_latency_failure_witness :
    (0 : ℚ) ≤ trackerEx.window ∧
    ((trackerEx.recordFailure "boom" 0 0).health 0).latency_p50_ms =
      (trackerEx.health 0).latency_p50_ms :=
  ⟨by norm_num [trackerEx],
    (claim_C9_zero_latency_failure trackerEx "boom" 0 (by norm_num [trackerEx])).1⟩

end RPG
